import Mathlib

/-!
Shallow embedding of the spfetch library core (src/spfetch/utils.py,
src/spfetch/destinations.py, src/spfetch/client.py) and proofs of the
frozen claims about it.

Conventions of the embedding:
* Python exceptions are values of `PyError`; fallible code returns `Except`.
* `float` amounts (delays, Retry-After values) are embedded as rationals.
* A decorated async operation is a state transformer over `RetryState`,
  which counts how many times the underlying operation was invoked and
  records every backoff sleep that was performed.
-/

deriving instance DecidableEq for Except

namespace Spfetch

/-- Exceptions that the modelled code can raise.
`httpStatus` stands for `httpx.HTTPStatusError`, carrying the response's
status code and its optional Retry-After header; `valueError` for a
`ValueError` (e.g. from `float(...)`); `keyError` for a `KeyError` from a
missing JSON field.  Exceptions other than `HTTPStatusError` are not caught
by the retry decorator's `except` clause, so they propagate unchanged,
which is exactly how the model treats every non-`httpStatus` constructor. -/
inductive PyError where
  | httpStatus (status : Nat) (retryAfter : Option String)
  | valueError
  | keyError
  deriving DecidableEq, Repr

/-- Observable effects of a decorated operation: how many times the wrapped
function body was invoked, and the list of `asyncio.sleep` durations. -/
structure RetryState where
  calls : Nat
  sleeps : List ℚ
  deriving DecidableEq, Repr

/-- The initial state: no invocations, no sleeps. -/
def initState : RetryState := ⟨0, []⟩

/-- A Python async computation, modelled as a state transformer that may
raise a `PyError`. -/
abbrev CompM (α : Type) := RetryState → Except PyError α × RetryState

/-- Invoking the underlying wrapped operation once: the result may depend
on how many invocations happened before (the invocation index), and the
invocation counter is advanced. -/
def invoke (op : Nat → Except PyError α) : CompM α :=
  fun s => (op s.calls, ⟨s.calls + 1, s.sleeps⟩)

/-- Sequencing of modelled computations; an exception short-circuits. -/
def bindC (m : CompM α) (f : α → CompM β) : CompM β :=
  fun s =>
    match m s with
    | (Except.ok a, s1) => f a s1
    | (Except.error e, s1) => (Except.error e, s1)

/-! ### Model of Python `float(str)` parsing (for the Retry-After header)

`utils.py` line 23 runs `float(e.response.headers.get("Retry-After", ...))`.
`parseDecimal` embeds CPython float-literal parsing restricted to finite
decimal notation: optional surrounding whitespace, optional sign, a decimal
significand (`digits`, `digits.digits`, `.digits`, `digits.`) and an
optional decimal exponent.  Inputs outside this grammar (such as an
HTTP-date) make CPython's `float` raise `ValueError`; here they give
`none`. -/

/-- ASCII decimal digit test. -/
def isDig (c : Char) : Bool := '0' ≤ c && c ≤ '9'

/-- Numeric value of a digit character. -/
def digVal (c : Char) : Nat := c.toNat - '0'.toNat

/-- Value of a digit string, most significant digit first. -/
def natOfDigits (ds : List Char) : Nat :=
  ds.foldl (fun n c => 10 * n + digVal c) 0

/-- Whitespace stripped by Python's `float` around the literal. -/
def isPySpace (c : Char) : Bool :=
  c = ' ' || c = '\t' || c = '\n' || c = '\r'

/-- Strip leading and trailing whitespace. -/
def stripChars (cs : List Char) : List Char :=
  ((cs.dropWhile isPySpace).reverse.dropWhile isPySpace).reverse

/-- Parse the decimal significand, returning its value and the rest. -/
def parseMantissa (cs : List Char) : Option (ℚ × List Char) :=
  let ip := cs.takeWhile isDig
  let r1 := cs.dropWhile isDig
  match r1 with
  | '.' :: r2 =>
    let fp := r2.takeWhile isDig
    let r3 := r2.dropWhile isDig
    if ip.isEmpty && fp.isEmpty then none
    else some ((natOfDigits ip : ℚ) + (natOfDigits fp : ℚ) / (10 : ℚ) ^ fp.length, r3)
  | _ => if ip.isEmpty then none else some ((natOfDigits ip : ℚ), r1)

/-- Parse a decimal exponent part `e[+-]digits`. -/
def parseExponent (cs : List Char) : Option (Int × List Char) :=
  match cs with
  | [] => none
  | c :: r =>
    if c = 'e' || c = 'E' then
      match r with
      | '+' :: r2 =>
        let ds := r2.takeWhile isDig
        if ds.isEmpty then none else some ((natOfDigits ds : Int), r2.dropWhile isDig)
      | '-' :: r2 =>
        let ds := r2.takeWhile isDig
        if ds.isEmpty then none else some (-(natOfDigits ds : Int), r2.dropWhile isDig)
      | _ =>
        let ds := r.takeWhile isDig
        if ds.isEmpty then none else some ((natOfDigits ds : Int), r.dropWhile isDig)
    else none

/-- Apply an optional leading minus sign. -/
def applySign (neg : Bool) (q : ℚ) : ℚ := if neg then -q else q

/-- Parse a full float literal (after whitespace stripping). -/
def parseDecimalAux (cs : List Char) : Option ℚ :=
  let signed : Bool × List Char :=
    match cs with
    | '+' :: r => (false, r)
    | '-' :: r => (true, r)
    | r => (false, r)
  match parseMantissa signed.2 with
  | none => none
  | some (m, rest) =>
    match rest with
    | [] => some (applySign signed.1 m)
    | _ =>
      match parseExponent rest with
      | some (e, []) => some (applySign signed.1 (m * (10 : ℚ) ^ e))
      | _ => none

/-- Model of Python `float(s)` for a header string: `some q` when the
string is a finite decimal literal of value `q`, `none` when `float`
would raise `ValueError`. -/
def parseDecimal (s : String) : Option ℚ :=
  parseDecimalAux (stripChars s.data)

/-! ### The retry decorator (`utils.py`, `retry_on_429`) -/

/-- Model of `float(e.response.headers.get("Retry-After", base_delay * (2 ** retries)))`
from utils.py line 23: when the header is present its string is parsed as a
float (`ValueError` — i.e. `PyError.valueError` — when unparseable); when it
is absent, `dict.get` returns the default `base_delay * 2 ** retries`, and
`float` of a float is the identity. -/
def waitTime (retryAfter : Option String) (base_delay : ℚ) (retries : Nat) :
    Except PyError ℚ :=
  match retryAfter with
  | some s =>
    match parseDecimal s with
    | some q => Except.ok q
    | none => Except.error PyError.valueError
  | none => Except.ok (base_delay * 2 ^ retries)

/-- The `while retries <= max_retries` loop of `retry_on_429`'s `wrapper`.
The loop counter is carried as `fuel = max_retries + 1 - retries`, so the
loop guard `retries ≤ max_retries` is the pattern `fuel = f + 1`, the inner
check `retries < max_retries` is `0 < f`, and `retries = max_retries - f`.
The `fuel = 0` case is the dead `return await func(...)` after the loop
(lines 34 of utils.py), kept for faithfulness. -/
def retryLoop (call : CompM α) (max_retries : Nat) (base_delay : ℚ) :
    Nat → CompM α
  | 0 => fun s => call s
  | f + 1 => fun s =>
    match call s with
    | (Except.ok a, s1) => (Except.ok a, s1)
    | (Except.error e, s1) =>
      match e with
      | PyError.httpStatus st retryAfter =>
        if st = 429 ∧ 0 < f then
          match waitTime retryAfter base_delay (max_retries - f) with
          | Except.ok w =>
            retryLoop call max_retries base_delay f ⟨s1.calls, s1.sleeps ++ [w]⟩
          | Except.error e2 => (Except.error e2, s1)
        else (Except.error e, s1)
      | _ => (Except.error e, s1)

/-- The decorator `retry_on_429(max_retries, base_delay)` applied to a
computation: run the retry loop starting at `retries = 0`
(i.e. `fuel = max_retries + 1`). -/
def retry_on_429 (max_retries : Nat) (base_delay : ℚ) (func : CompM α) : CompM α :=
  retryLoop func max_retries base_delay (max_retries + 1)

/-- The rate-limit test of utils.py line 20 (`e.response.status_code == 429`
on an `HTTPStatusError`). -/
def is429 : PyError → Bool
  | PyError.httpStatus st _ => st == 429
  | _ => false

/-! ### Destinations (`destinations.py`)

Python `dict`s with string keys and values are embedded as insertion-ordered
association lists; all keys inserted by this code are distinct.  Optional
constructor arguments (default `None`) are `Option String`; the `if self.x:`
truthiness tests of Python treat both `None` and the empty string as false,
which `pyTruthy` captures. -/

/-- Python truthiness of an optional string: `None` and `""` are falsy. -/
def pyTruthy : Option String → Bool
  | none => false
  | some s => !(s == "")

/-- The `LocalDestination` variant carries no configuration. -/
structure LocalDestination where

/-- Model of `LocalDestination.get_storage_options`: an empty mapping. -/
def LocalDestination.get_storage_options (_d : LocalDestination) :
    List (String × String) := []

/-- The `AzureDestination(account_name, account_key=None, sas_token=None)` variant. -/
structure AzureDestination where
  account_name : String
  account_key : Option String
  sas_token : Option String
  deriving DecidableEq, Repr

/-- Model of `AzureDestination.get_storage_options`: starts from
`{"account_name": ...}`, then `if self.account_key:` adds the key,
`elif self.sas_token:` adds the token. -/
def AzureDestination.get_storage_options (d : AzureDestination) :
    List (String × String) :=
  let options := [("account_name", d.account_name)]
  if pyTruthy d.account_key then options ++ [("account_key", d.account_key.getD "")]
  else if pyTruthy d.sas_token then options ++ [("sas_token", d.sas_token.getD "")]
  else options

/-- The `S3Destination(key, secret, token=None)` variant. -/
structure S3Destination where
  key : String
  secret : String
  token : Option String
  deriving DecidableEq, Repr

/-- Model of `S3Destination.get_storage_options`: starts from
`{"key": ..., "secret": ...}`, then `if self.token:` adds the token. -/
def S3Destination.get_storage_options (d : S3Destination) :
    List (String × String) :=
  let options := [("key", d.key), ("secret", d.secret)]
  if pyTruthy d.token then options ++ [("token", d.token.getD "")]
  else options

/-! ### The Remote Client steps (`client.py`)

Each HTTP round trip is modelled by the data the handling code inspects:
the status code, the Retry-After header (consulted only by the retry
decorator once the step raises), and the JSON fields the code reads. -/

/-- Model of httpx `response.raise_for_status()`: raises `HTTPStatusError` for
4xx/5xx status codes, otherwise does nothing. -/
def raiseForStatus (status : Nat) (retryAfter : Option String) : Option PyError :=
  if 400 ≤ status then some (PyError.httpStatus status retryAfter) else none

/-- Response of the site-resolution endpoint (`/sites/hostname:/path`):
its status and the `id` field of its JSON body, when present. -/
structure SiteResponse where
  status : Nat
  retryAfter : Option String
  id : Option String
  deriving DecidableEq, Repr

/-- Model of `_get_site_id` (client.py lines 40-57): on a non-200 status it logs and
calls `raise_for_status()`; if that does not raise (status below 400) the
code falls through, like the 200 path, to `response.json()["id"]`, which
raises `KeyError` when the field is missing. -/
def get_site_id (resp : SiteResponse) : Except PyError String :=
  match (if resp.status ≠ 200 then raiseForStatus resp.status resp.retryAfter else none) with
  | some e => Except.error e
  | none =>
    match resp.id with
    | some i => Except.ok i
    | none => Except.error PyError.keyError

/-- Response of the object-metadata endpoint: status plus the optional
`size` field of the JSON body. -/
structure SizeResponse where
  status : Nat
  retryAfter : Option String
  size : Option Nat
  deriving DecidableEq, Repr

/-- Model of `_get_file_size` (client.py lines 59-72): on 200 return
`response.json().get("size", 0)`, on anything else return `0`; this step
never raises. -/
def get_file_size (resp : SizeResponse) : Except PyError Nat :=
  if resp.status = 200 then Except.ok (resp.size.getD 0)
  else Except.ok 0

/-- The guard on the streamed content response (client.py lines 117-120 and
184-187): non-200 logs and calls `raise_for_status()`; when no exception
results the code proceeds to the chunk loop. -/
def open_content_stream (status : Nat) (retryAfter : Option String) :
    Except PyError Unit :=
  match (if status ≠ 200 then raiseForStatus status retryAfter else none) with
  | some e => Except.error e
  | none => Except.ok ()

/-- A drive item of the folder-listing JSON `value` array: the fields the
`ls` mapping reads.  `folder` is `some ()` exactly when the item carries the
`folder` marker field (`"folder" in item`). -/
structure DriveItem where
  name : String
  id : String
  folder : Option Unit
  size : Option Nat
  lastModifiedDateTime : Option String
  webUrl : Option String
  deriving DecidableEq, Repr

/-- The structured record `ls` returns per item. -/
structure LsRecord where
  name : String
  is_folder : Bool
  size : Nat
  id : String
  last_modified : Option String
  web_url : Option String
  deriving DecidableEq, Repr

/-- The per-item mapping of `ls` (client.py lines 251-260). -/
def lsRecordOfItem (item : DriveItem) : LsRecord :=
  ⟨item.name, item.folder.isSome, item.size.getD 0, item.id,
    item.lastModifiedDateTime, item.webUrl⟩

/-- Response of the children-listing endpoint: status plus the optional
`value` array. -/
structure LsResponse where
  status : Nat
  retryAfter : Option String
  value : Option (List DriveItem)
  deriving DecidableEq, Repr

/-- The response handling of `ls` (client.py lines 243-263): non-200 logs
and calls `raise_for_status()`; otherwise
`items = response.json().get("value", [])` is mapped to records. -/
def ls_handle (resp : LsResponse) : Except PyError (List LsRecord) :=
  match (if resp.status ≠ 200 then raiseForStatus resp.status resp.retryAfter else none) with
  | some e => Except.error e
  | none => Except.ok ((resp.value.getD []).map lsRecordOfItem)

/-! ### The `read_df` format dispatch (client.py lines 191-199)

Paths are embedded as `List Char`; `pyLower` is Python's `str.lower`
(restricted to ASCII case mapping, which covers the compared extensions) and
`endswith` is `List.isSuffixOf`. -/

/-- Which parser (if any) `read_df` dispatches to. -/
inductive ReadDispatch where
  | csv
  | excel
  | unsupported
  deriving DecidableEq, Repr

/-- Model of `file_path.lower()`: ASCII lowercasing of every character. -/
def pyLower (cs : List Char) : List Char := cs.map Char.toLower

/-- The dispatch on the already-lowercased path:
`if file_lower.endswith('.csv') ... elif file_lower.endswith(('.xlsx', '.xls')) ... else raise ValueError`. -/
def suffixDispatch (file_lower : List Char) : ReadDispatch :=
  if List.isSuffixOf ['.', 'c', 's', 'v'] file_lower then ReadDispatch.csv
  else if List.isSuffixOf ['.', 'x', 'l', 's', 'x'] file_lower
      || List.isSuffixOf ['.', 'x', 'l', 's'] file_lower then ReadDispatch.excel
  else ReadDispatch.unsupported

/-- The complete dispatch decision of `read_df` on a file path:
`file_lower = file_path.lower()` followed by the suffix tests. -/
def read_df_dispatch (file_path : List Char) : ReadDispatch :=
  suffixDispatch (pyLower file_path)

/-- The characters after the last `'.'` of a string, if any dot occurs:
the (lowercased) file extension that the spec says the dispatch is keyed on. -/
def extAfterDot : List Char → Option (List Char)
  | [] => none
  | c :: rest =>
    match extAfterDot rest with
    | some e => some e
    | none => if c = '.' then some rest else none

/-- Modelled from the spec: dispatch determined solely by the
case-insensitively lowered extension (the text after the last dot) —
`csv` to the delimited-text parser, `xlsx`/`xls` to the spreadsheet parser,
everything else (including extensionless paths) unsupported. -/
def extDispatch : Option (List Char) → ReadDispatch
  | none => ReadDispatch.unsupported
  | some e =>
    if e = ['c', 's', 'v'] then ReadDispatch.csv
    else if e = ['x', 'l', 's', 'x'] ∨ e = ['x', 'l', 's'] then ReadDispatch.excel
    else ReadDispatch.unsupported

end Spfetch

namespace Spfetch

/-! ### Lemmas about runs of the retry decorator -/

/-- The wait the code selects before retry number `k` when the header (if
present) parses: the parsed Retry-After value when the header is present,
`base_delay * 2 ^ k` when it is absent. -/
def expectedWait (retryAfter : Option String) (d : ℚ) (k : Nat) : ℚ :=
  match retryAfter with
  | some s => (parseDecimal s).getD 0
  | none => d * 2 ^ k

/-- One unfolding of the retry loop when the body returns successfully. -/
theorem retryLoop_succ_ok {α : Type} (call : CompM α) (n : Nat) (d : ℚ) (f : Nat)
    (s s1 : RetryState) (a : α) (hc : call s = (Except.ok a, s1)) :
    retryLoop call n d (f + 1) s = (Except.ok a, s1) := by
  simp [retryLoop, hc]

/-- One unfolding of the retry loop when the body raises `HTTPStatusError`. -/
theorem retryLoop_succ_error {α : Type} (call : CompM α) (n : Nat) (d : ℚ) (f : Nat)
    (s s1 : RetryState) (st : Nat) (ra : Option String)
    (hc : call s = (Except.error (PyError.httpStatus st ra), s1)) :
    retryLoop call n d (f + 1) s =
      (if st = 429 ∧ 0 < f then
        match waitTime ra d (n - f) with
        | Except.ok w => retryLoop call n d f ⟨s1.calls, s1.sleeps ++ [w]⟩
        | Except.error e2 => (Except.error e2, s1)
      else (Except.error (PyError.httpStatus st ra), s1)) := by
  simp [retryLoop, hc]

/-- A run of the retry loop over an operation that raises 429 (with
header-parses-or-absent) on every invocation index below `t` and succeeds
at index `t ≤ max_retries`: it returns the success, makes `t + 1`
invocations, and sleeps the expected wait for attempts `r, …, t-1`. -/
theorem retryLoop_run_aux {α : Type} (op : Nat → Except PyError α) (n : Nat) (d : ℚ)
    (t : Nat) (hdr : Nat → Option String) (v : α)
    (hfail : ∀ i, i < t → op i = Except.error (PyError.httpStatus 429 (hdr i)))
    (hparse : ∀ i, i < t → ∀ s, hdr i = some s → (parseDecimal s).isSome)
    (hsucc : op t = Except.ok v) (ht : t ≤ n) :
    ∀ (m r : Nat) (sl : List ℚ), r + m = t →
      retryLoop (invoke op) n d (n + 1 - r) ⟨r, sl⟩ =
        (Except.ok v,
          ⟨t + 1, sl ++ (List.range' r m).map (fun k => expectedWait (hdr k) d k)⟩) := by
  intro m
  induction m with
  | zero =>
    intro r sl hr
    obtain rfl : r = t := by omega
    have hfuel : n + 1 - r = (n - r) + 1 := by omega
    have hcall : invoke op ⟨r, sl⟩ = (Except.ok v, ⟨r + 1, sl⟩) := by
      simp [invoke, hsucc]
    rw [hfuel, retryLoop_succ_ok _ _ _ _ _ _ _ hcall]
    simp
  | succ m ih =>
    intro r sl hr
    have hrt : r < t := by omega
    have hfuel : n + 1 - r = (n - r) + 1 := by omega
    have hcall : invoke op ⟨r, sl⟩ =
        (Except.error (PyError.httpStatus 429 (hdr r)), ⟨r + 1, sl⟩) := by
      simp [invoke, hfail r hrt]
    rw [hfuel, retryLoop_succ_error _ _ _ _ _ _ _ _ hcall, if_pos ⟨rfl, by omega⟩]
    have hexp : n - (n - r) = r := by omega
    have hrec : n - r = n + 1 - (r + 1) := by omega
    cases hh : hdr r with
    | none =>
      simp only [waitTime, hexp]
      rw [hrec, ih (r + 1) (sl ++ [d * 2 ^ r]) (by omega)]
      rw [List.range'_succ]
      simp [expectedWait, hh]
    | some s =>
      obtain ⟨q, hq⟩ := Option.isSome_iff_exists.mp (hparse r hrt s hh)
      simp only [waitTime, hq]
      rw [hrec, ih (r + 1) (sl ++ [q]) (by omega)]
      rw [List.range'_succ]
      simp [expectedWait, hh, hq]

/-- A run of the retry loop over an operation that raises 429 (with
header-parses-or-absent) on every invocation: starting at retry index
`r = n - m`, it propagates the 429 of attempt `n`, makes `n + 1` total
invocations, and sleeps the expected wait for attempts `r, …, n-1`. -/
theorem retryLoop_exhaust_aux {α : Type} (op : Nat → Except PyError α) (n : Nat) (d : ℚ)
    (hdr : Nat → Option String)
    (hfail : ∀ i, op i = Except.error (PyError.httpStatus 429 (hdr i)))
    (hparse : ∀ i, i < n → ∀ s, hdr i = some s → (parseDecimal s).isSome) :
    ∀ (m r : Nat) (sl : List ℚ), r + m = n →
      retryLoop (invoke op) n d (n + 1 - r) ⟨r, sl⟩ =
        (Except.error (PyError.httpStatus 429 (hdr n)),
          ⟨n + 1, sl ++ (List.range' r m).map (fun k => expectedWait (hdr k) d k)⟩) := by
  intro m
  induction m with
  | zero =>
    intro r sl hr
    obtain rfl : r = n := by omega
    have hfuel : r + 1 - r = 0 + 1 := by omega
    have hcall : invoke op ⟨r, sl⟩ =
        (Except.error (PyError.httpStatus 429 (hdr r)), ⟨r + 1, sl⟩) := by
      simp [invoke, hfail r]
    rw [hfuel, retryLoop_succ_error _ _ _ _ _ _ _ _ hcall, if_neg (by omega)]
    simp
  | succ m ih =>
    intro r sl hr
    have hrt : r < n := by omega
    have hfuel : n + 1 - r = (n - r) + 1 := by omega
    have hcall : invoke op ⟨r, sl⟩ =
        (Except.error (PyError.httpStatus 429 (hdr r)), ⟨r + 1, sl⟩) := by
      simp [invoke, hfail r]
    rw [hfuel, retryLoop_succ_error _ _ _ _ _ _ _ _ hcall, if_pos ⟨rfl, by omega⟩]
    have hexp : n - (n - r) = r := by omega
    have hrec : n - r = n + 1 - (r + 1) := by omega
    cases hh : hdr r with
    | none =>
      simp only [waitTime, hexp]
      rw [hrec, ih (r + 1) (sl ++ [d * 2 ^ r]) (by omega)]
      rw [List.range'_succ]
      simp [expectedWait, hh]
    | some s =>
      obtain ⟨q, hq⟩ := Option.isSome_iff_exists.mp (hparse r hrt s hh)
      simp only [waitTime, hq]
      rw [hrec, ih (r + 1) (sl ++ [q]) (by omega)]
      rw [List.range'_succ]
      simp [expectedWait, hh, hq]

/-- A computation that, from every state, raises a header-less 429 after
consuming `k` invocations of the underlying operation and appending the
sleep list `S`. -/
def constFail429 {α : Type} (m : CompM α) (k : Nat) (S : List ℚ) : Prop :=
  ∀ s, m s = (Except.error (PyError.httpStatus 429 none), ⟨s.calls + k, s.sleeps ++ S⟩)

/-- The sleeps a `constFail429`-style body accumulates across a full retry
run that starts at retry index `r` and performs `j` more retries. -/
def wrapSleeps (d : ℚ) (S : List ℚ) : Nat → Nat → List ℚ
  | _, 0 => S
  | r, j + 1 => S ++ d * 2 ^ r :: wrapSleeps d S (r + 1) j

/-- Invoking an operation that always raises a header-less 429 consumes one
invocation and no sleeps. -/
theorem invoke_constFail {α : Type} (op : Nat → Except PyError α)
    (h : ∀ i, op i = Except.error (PyError.httpStatus 429 none)) :
    constFail429 (invoke op) 1 [] := by
  intro s
  simp [invoke, h]

/-- Sequencing after a constantly-failing computation never reaches the
continuation. -/
theorem bindC_constFail {α β : Type} (m : CompM α) (k : Nat) (S : List ℚ)
    (hm : constFail429 m k S) (f : α → CompM β) :
    constFail429 (bindC m f) k S := by
  intro s
  simp [bindC, hm s]

/-- Retry loop over a constantly-429-failing body: with `j` retries left it
re-runs the body `j + 1` times, multiplying the invocation count, and then
propagates the 429. -/
theorem retryLoop_constFail_aux {α : Type} (m : CompM α) (k : Nat) (S : List ℚ)
    (n : Nat) (d : ℚ) (hm : constFail429 m k S) :
    ∀ (j r : Nat) (c : Nat) (sl : List ℚ), r + j = n →
      retryLoop m n d (n + 1 - r) ⟨c, sl⟩ =
        (Except.error (PyError.httpStatus 429 none),
          ⟨c + (j + 1) * k, sl ++ wrapSleeps d S r j⟩) := by
  intro j
  induction j with
  | zero =>
    intro r c sl hr
    obtain rfl : r = n := by omega
    have hfuel : r + 1 - r = 0 + 1 := by omega
    rw [hfuel, retryLoop_succ_error _ _ _ _ _ _ _ _ (hm ⟨c, sl⟩), if_neg (by omega)]
    simp [wrapSleeps]
  | succ j ih =>
    intro r c sl hr
    have hrn : r < n := by omega
    have hfuel : n + 1 - r = (n - r) + 1 := by omega
    rw [hfuel, retryLoop_succ_error _ _ _ _ _ _ _ _ (hm ⟨c, sl⟩), if_pos ⟨rfl, by omega⟩]
    have hexp : n - (n - r) = r := by omega
    simp only [waitTime, hexp]
    have hrec : n - r = n + 1 - (r + 1) := by omega
    rw [hrec, ih (r + 1) (c + k) ((sl ++ S) ++ [d * 2 ^ r]) (by omega)]
    rw [wrapSleeps]
    have h1 : c + k + (j + 1) * k = c + (j + 1 + 1) * k := by ring
    have h2 : sl ++ S ++ [d * 2 ^ r] ++ wrapSleeps d S (r + 1) j =
        sl ++ (S ++ d * 2 ^ r :: wrapSleeps d S (r + 1) j) := by
      simp
    rw [h1, h2]

/-- The decorator applied to a constantly-429-failing body yields a
constantly-429-failing computation whose invocation count is multiplied by
`max_retries + 1`. -/
theorem retry_on_429_constFail {α : Type} (m : CompM α) (k : Nat) (S : List ℚ)
    (n : Nat) (d : ℚ) (hm : constFail429 m k S) :
    constFail429 (retry_on_429 n d m) ((n + 1) * k) (wrapSleeps d S 0 n) := by
  intro s
  have h := retryLoop_constFail_aux m k S n d hm n 0 s.calls s.sleeps (by omega)
  simpa [retry_on_429] using h

/-- One unfolding of the retry loop when the body raises an exception other
than `HTTPStatusError`: such an exception is not caught by the decorator's
`except HTTPStatusError` clause and propagates unchanged. -/
theorem retryLoop_succ_uncaught {α : Type} (call : CompM α) (n : Nat) (d : ℚ) (f : Nat)
    (s s1 : RetryState) (e : PyError)
    (he : ∀ st ra, e ≠ PyError.httpStatus st ra)
    (hc : call s = (Except.error e, s1)) :
    retryLoop call n d (f + 1) s = (Except.error e, s1) := by
  cases e with
  | httpStatus st ra => exact absurd rfl (he st ra)
  | valueError => simp [retryLoop, hc]
  | keyError => simp [retryLoop, hc]

/-! ### The claims about the retry decorator -/

/-- C1: for every `max_retries = n ≥ 0`, an operation that raises the
rate-limit (429) signal on its first `n` invocations (with parseable-or-
absent Retry-After headers, so that the backoff sleeps succeed) and
succeeds on invocation `n + 1` makes the wrapper return that success after
exactly `n + 1` invocations; an operation that raises the rate-limit signal
on every invocation is invoked exactly `n + 1` times and the wrapper
propagates the rate-limit failure of the final attempt. -/
theorem C1_retry_success_and_exhaustion {α : Type} (n : Nat) (d : ℚ)
    (op1 op2 : Nat → Except PyError α) (hdr1 hdr2 : Nat → Option String) (v : α)
    (h1fail : ∀ i, i < n → op1 i = Except.error (PyError.httpStatus 429 (hdr1 i)))
    (h1parse : ∀ i, i < n → ∀ s, hdr1 i = some s → (parseDecimal s).isSome)
    (h1succ : op1 n = Except.ok v)
    (h2fail : ∀ i, op2 i = Except.error (PyError.httpStatus 429 (hdr2 i)))
    (h2parse : ∀ i, i < n → ∀ s, hdr2 i = some s → (parseDecimal s).isSome) :
    ((retry_on_429 n d (invoke op1) initState).1 = Except.ok v ∧
      (retry_on_429 n d (invoke op1) initState).2.calls = n + 1) ∧
    ((retry_on_429 n d (invoke op2) initState).1 =
        Except.error (PyError.httpStatus 429 (hdr2 n)) ∧
      (retry_on_429 n d (invoke op2) initState).2.calls = n + 1) := by
  have h1 := retryLoop_run_aux op1 n d n hdr1 v h1fail h1parse h1succ (Nat.le_refl n)
    n 0 [] (by omega)
  have h2 := retryLoop_exhaust_aux op2 n d hdr2 h2fail h2parse n 0 [] (by omega)
  simp only [Nat.sub_zero] at h1 h2
  refine ⟨⟨?_, ?_⟩, ?_, ?_⟩ <;> simp [retry_on_429, initState, h1, h2]

/-- Operation for the C1 witness: 429 twice (no Retry-After), then success. -/
def c1SuccOp : Nat → Except PyError Nat :=
  fun i => if i < 2 then Except.error (PyError.httpStatus 429 none) else Except.ok 37

/-- Operation for the C1 witness: 429 (no Retry-After) on every invocation. -/
def c1FailOp : Nat → Except PyError Nat :=
  fun _ => Except.error (PyError.httpStatus 429 none)

/-- Header function used by witnesses: never a Retry-After header. -/
def noHeader : Nat → Option String := fun _ => none

/-- Witness for C1 at `max_retries = 2`. -/
theorem C1_witness :
    ((retry_on_429 2 1 (invoke c1SuccOp) initState).1 = Except.ok 37 ∧
      (retry_on_429 2 1 (invoke c1SuccOp) initState).2.calls = 3) ∧
    ((retry_on_429 2 1 (invoke c1FailOp) initState).1 =
        Except.error (PyError.httpStatus 429 none) ∧
      (retry_on_429 2 1 (invoke c1FailOp) initState).2.calls = 3) :=
  C1_retry_success_and_exhaustion 2 1 c1SuccOp c1FailOp noHeader noHeader 37
    (by decide) (fun _ _ _ h => Option.noConfusion h) (by decide)
    (fun _ => rfl) (fun _ _ _ h => Option.noConfusion h)

/-- C2: for every `max_retries` (including 0), a first invocation that
raises any failure other than the rate-limit (429) signal makes the wrapper
stop immediately: exactly one invocation, the original failure propagated
unchanged, and no backoff sleep. -/
theorem C2_non_rate_limit_single_attempt {α : Type} (n : Nat) (d : ℚ)
    (op : Nat → Except PyError α) (e : PyError)
    (h429 : is429 e = false) (h0 : op 0 = Except.error e) :
    retry_on_429 n d (invoke op) initState = (Except.error e, ⟨1, []⟩) := by
  have hcall : invoke op initState = (Except.error e, ⟨1, []⟩) := by
    simp [invoke, initState, h0]
  cases e with
  | httpStatus st ra =>
    have hst : st ≠ 429 := by simpa [is429] using h429
    rw [retry_on_429, retryLoop_succ_error _ _ _ _ _ _ _ _ hcall,
      if_neg (fun hc => hst hc.1)]
  | valueError =>
    rw [retry_on_429,
      retryLoop_succ_uncaught _ _ _ _ _ _ _ (fun _ _ h => PyError.noConfusion h) hcall]
  | keyError =>
    rw [retry_on_429,
      retryLoop_succ_uncaught _ _ _ _ _ _ _ (fun _ _ h => PyError.noConfusion h) hcall]

/-- Operation for the C2 witness: a 500 `HTTPStatusError` first. -/
def c2Op : Nat → Except PyError Nat :=
  fun _ => Except.error (PyError.httpStatus 500 none)

/-- Witness for C2 at `max_retries = 5`, failure 500. -/
theorem C2_witness :
    retry_on_429 5 1 (invoke c2Op) initState =
      (Except.error (PyError.httpStatus 500 none), ⟨1, []⟩) :=
  C2_non_rate_limit_single_attempt 5 1 c2Op (PyError.httpStatus 500 none)
    (by decide) rfl

/-- C3: over a run whose attempts `0, …, t-1` all raise 429, the recorded
backoff sleeps are, in order for each retry attempt `k`: the parsed
Retry-After value when the response carried that header, and
`base_delay * 2 ^ k` when it did not. -/
theorem C3_wait_selection {α : Type} (n : Nat) (d : ℚ) (t : Nat)
    (op : Nat → Except PyError α) (hdr : Nat → Option String) (v : α)
    (ht : t ≤ n)
    (hfail : ∀ i, i < t → op i = Except.error (PyError.httpStatus 429 (hdr i)))
    (hparse : ∀ i, i < t → ∀ s, hdr i = some s → (parseDecimal s).isSome)
    (hsucc : op t = Except.ok v) :
    (retry_on_429 n d (invoke op) initState).2.sleeps =
      (List.range t).map (fun k => expectedWait (hdr k) d k) := by
  have h := retryLoop_run_aux op n d t hdr v hfail hparse hsucc ht t 0 [] (by omega)
  simp only [Nat.sub_zero] at h
  simp [retry_on_429, initState, h, List.range_eq_range']

/-- Headers for the C3 witness: a `"0.1"` hint on attempt 0, none on 1. -/
def c3hdr : Nat → Option String := fun i => if i = 0 then some "0.1" else none

/-- Operation for the C3 witness: 429 with `c3hdr` twice, then success. -/
def c3op : Nat → Except PyError Nat :=
  fun i => if i < 2 then Except.error (PyError.httpStatus 429 (c3hdr i)) else Except.ok 0

/-- Witness for C3: hint `"0.1"` honoured exactly, then `1 * 2 ^ 1`. -/
theorem C3_witness :
    (retry_on_429 3 1 (invoke c3op) initState).2.sleeps = [1 / 10, 2] := by
  have hp : ∀ i, i < 2 → ∀ s, c3hdr i = some s → (parseDecimal s).isSome := by
    intro i hi s hs
    interval_cases i
    · rw [show s = "0.1" from by simpa [c3hdr] using hs.symm]
      with_unfolding_all decide
    · simp [c3hdr] at hs
  have h := C3_wait_selection 3 1 2 c3op c3hdr 0 (by omega) (by decide) hp (by decide)
  rw [h]
  with_unfolding_all decide

/-- C5: when a rate-limited first attempt carries a Retry-After header that
does not parse as a float and a retry would otherwise happen
(`max_retries ≥ 1`), the wrapper raises `ValueError` from the `float(...)`
conversion instead of retrying, sleeping, or propagating the original
rate-limit failure: one invocation, no sleeps, `ValueError` out. -/
theorem C5_unparseable_hint_raises {α : Type} (n : Nat) (d : ℚ)
    (op : Nat → Except PyError α) (hs : String)
    (hn : 1 ≤ n) (h0 : op 0 = Except.error (PyError.httpStatus 429 (some hs)))
    (hbad : parseDecimal hs = none) :
    retry_on_429 n d (invoke op) initState =
      (Except.error PyError.valueError, ⟨1, []⟩) := by
  have hcall : invoke op initState =
      (Except.error (PyError.httpStatus 429 (some hs)), ⟨1, []⟩) := by
    simp [invoke, initState, h0]
  rw [retry_on_429, retryLoop_succ_error _ _ _ _ _ _ _ _ hcall,
    if_pos ⟨rfl, by omega⟩]
  simp [waitTime, hbad]

/-- Operation for the C5 witness: 429 whose Retry-After is an HTTP-date. -/
def c5Op : Nat → Except PyError Nat :=
  fun _ => Except.error (PyError.httpStatus 429 (some "Wed, 21 Oct 2026 07:28:00 GMT"))

/-- Witness for C5 at `max_retries = 3` with an HTTP-date hint. -/
theorem C5_witness :
    retry_on_429 3 1 (invoke c5Op) initState =
      (Except.error PyError.valueError, ⟨1, []⟩) :=
  C5_unparseable_hint_raises 3 1 c5Op "Wed, 21 Oct 2026 07:28:00 GMT"
    (by omega) rfl (by with_unfolding_all decide)

/-! ### Nested decoration of the public operations (claim C4)

`download`, `read_df` and `ls` are themselves decorated
(`@retry_on_429(max_retries=5)` for `download`, `max_retries=3` for the
other two) and each of their bodies starts by awaiting the separately
decorated `_get_site_id` (`@retry_on_429(max_retries=3)`). -/

/-- One raw site-resolution request, driven by the sequence of responses
the server returns to the successive requests. -/
def siteOp (rs : Nat → SiteResponse) : Nat → Except PyError String :=
  fun i => get_site_id (rs i)

/-- The decorated `_get_site_id` step (`@retry_on_429(max_retries=3)`,
default `base_delay = 1.0`). -/
def siteResolutionStep (rs : Nat → SiteResponse) : CompM String :=
  retry_on_429 3 1 (invoke (siteOp rs))

/-- A decorated public operation (`download` with `outer = 5`, `read_df` and
`ls` with `outer = 3`): the whole body — the inner decorated site
resolution followed by the rest of the operation — is wrapped again. -/
def publicOpSkeleton {β : Type} (outer : Nat) (rs : Nat → SiteResponse)
    (rest : String → CompM β) : CompM β :=
  retry_on_429 outer 1 (bindC (siteResolutionStep rs) rest)

/-- C4: with a persistently rate-limited site resolution (every response a
headerless 429), the inner decorated step consumes `3 + 1` raw requests per
run of the operation body, each outer retry restarts the whole body, and in
total the raw site-resolution request is issued
`(inner_max_retries + 1) * (outer_max_retries + 1)` times —
`4 * 6 = 24` for `download`, `4 * 4 = 16` for `read_df` and `ls` — before
the rate-limit failure propagates. -/
theorem C4_nested_retry_amplification {β γ δ : Type} (rs : Nat → SiteResponse)
    (hrs : ∀ i, (rs i).status = 429 ∧ (rs i).retryAfter = none)
    (restDl : String → CompM β) (restRead : String → CompM γ)
    (restLs : String → CompM δ) :
    (∀ s, (siteResolutionStep rs s).2.calls = s.calls + (3 + 1)) ∧
    ((publicOpSkeleton 5 rs restDl initState).1 =
        Except.error (PyError.httpStatus 429 none) ∧
      (publicOpSkeleton 5 rs restDl initState).2.calls = (3 + 1) * (5 + 1)) ∧
    (publicOpSkeleton 3 rs restRead initState).2.calls = (3 + 1) * (3 + 1) ∧
    (publicOpSkeleton 3 rs restLs initState).2.calls = (3 + 1) * (3 + 1) := by
  have hop : ∀ i, siteOp rs i = Except.error (PyError.httpStatus 429 none) := by
    intro i
    have h1 := (hrs i).1
    have h2 := (hrs i).2
    simp [siteOp, get_site_id, raiseForStatus, h1, h2]
  have hInner : constFail429 (siteResolutionStep rs) ((3 + 1) * 1) (wrapSleeps 1 [] 0 3) :=
    retry_on_429_constFail _ _ _ _ _ (invoke_constFail _ hop)
  have hDl := retry_on_429_constFail _ _ _ 5 1 (bindC_constFail _ _ _ hInner restDl)
  have hRead := retry_on_429_constFail _ _ _ 3 1 (bindC_constFail _ _ _ hInner restRead)
  have hLs := retry_on_429_constFail _ _ _ 3 1 (bindC_constFail _ _ _ hInner restLs)
  refine ⟨fun s => ?_, ⟨?_, ?_⟩, ?_, ?_⟩
  · rw [hInner s]
  · simp only [publicOpSkeleton]
    rw [hDl initState]
  · simp only [publicOpSkeleton]
    rw [hDl initState]
    simp [initState]
  · simp only [publicOpSkeleton]
    rw [hRead initState]
    simp [initState]
  · simp only [publicOpSkeleton]
    rw [hLs initState]
    simp [initState]

/-- Responses for the C4 witness: always 429, no Retry-After. -/
def c4rs : Nat → SiteResponse := fun _ => ⟨429, none, none⟩

/-- Rest of the operation body for the C4 witness (never reached). -/
def c4rest : String → CompM Nat := fun _ s => (Except.ok 0, s)

/-- Witness for C4: the `download`-shaped nesting issues the raw
site-resolution request exactly 24 times and fails with the 429. -/
theorem C4_witness :
    (publicOpSkeleton 5 c4rs c4rest initState).2.calls = 24 ∧
    (publicOpSkeleton 5 c4rs c4rest initState).1 =
      Except.error (PyError.httpStatus 429 none) := by
  have h := C4_nested_retry_amplification c4rs (fun _ => ⟨rfl, rfl⟩) c4rest c4rest c4rest
  exact ⟨h.2.1.2.trans (by decide), h.2.1.1⟩

/-! ### Claims about the client's response handling (C9, C10) -/

/-- C9: every non-200 response to the object-metadata lookup — 429
included — makes `_get_file_size` return `0` without raising, so an
enclosing operation that binds on it simply proceeds with `total_size = 0`;
by contrast, every HTTP-error status (≥ 400, again 429 included) makes the
site-resolution step, the content-stream guard and the folder-listing step
raise — metadata lookup is the only step that degrades instead of
propagating. -/
theorem C9_metadata_degradation (β : Type) :
    (∀ resp : SizeResponse, resp.status ≠ 200 → get_file_size resp = Except.ok 0) ∧
    (∀ (resp : SizeResponse) (cont : Nat → CompM β) (s : RetryState),
      resp.status ≠ 200 →
        bindC (invoke (fun _ => get_file_size resp)) cont s =
          cont 0 ⟨s.calls + 1, s.sleeps⟩) ∧
    (∀ resp : SiteResponse, 400 ≤ resp.status →
      get_site_id resp = Except.error (PyError.httpStatus resp.status resp.retryAfter)) ∧
    (∀ (st : Nat) (ra : Option String), 400 ≤ st →
      open_content_stream st ra = Except.error (PyError.httpStatus st ra)) ∧
    (∀ resp : LsResponse, 400 ≤ resp.status →
      ls_handle resp = Except.error (PyError.httpStatus resp.status resp.retryAfter)) := by
  refine ⟨?_, ?_, ?_, ?_, ?_⟩
  · intro resp h
    simp [get_file_size, h]
  · intro resp cont s h
    simp [bindC, invoke, get_file_size, h]
  · intro resp h
    have h200 : resp.status ≠ 200 := by omega
    simp [get_site_id, raiseForStatus, h200, h]
  · intro st ra h
    have h200 : st ≠ 200 := by omega
    simp [open_content_stream, raiseForStatus, h200, h]
  · intro resp h
    have h200 : resp.status ≠ 200 := by omega
    simp [ls_handle, raiseForStatus, h200, h]

/-- Continuation for the C9 witness, standing for the rest of `download`. -/
def c9cont : Nat → CompM Nat := fun sz s => (Except.ok sz, s)

/-- Witness for C9 at status 429. -/
theorem C9_witness :
    get_file_size ⟨429, none, some 777⟩ = Except.ok 0 ∧
    bindC (invoke (fun _ => get_file_size ⟨429, none, some 777⟩)) c9cont initState =
      c9cont 0 ⟨1, []⟩ ∧
    get_site_id ⟨429, none, some "site-id"⟩ =
      Except.error (PyError.httpStatus 429 none) ∧
    open_content_stream 429 none = Except.error (PyError.httpStatus 429 none) ∧
    ls_handle ⟨429, none, some []⟩ = Except.error (PyError.httpStatus 429 none) := by
  obtain ⟨h1, h2, h3, h4, h5⟩ := C9_metadata_degradation Nat
  exact ⟨h1 ⟨429, none, some 777⟩ (by decide),
    h2 ⟨429, none, some 777⟩ c9cont initState (by decide),
    h3 ⟨429, none, some "site-id"⟩ (by decide),
    h4 429 none (by decide),
    h5 ⟨429, none, some []⟩ (by decide)⟩

/-- C10: on a 200 folder-listing response, `ls` maps each returned item, in
order and one-to-one, to a record whose `is_folder` is true exactly when
the item carries the `folder` marker field, whose `size` defaults to 0 when
absent, and whose `last_modified` and `web_url` are null when absent. -/
theorem C10_ls_item_mapping (resp : LsResponse) (items : List DriveItem)
    (h200 : resp.status = 200) (hval : resp.value = some items) :
    ls_handle resp = Except.ok (items.map lsRecordOfItem) ∧
    (items.map lsRecordOfItem).length = items.length ∧
    (∀ (i : Nat) (it : DriveItem), items[i]? = some it →
      (items.map lsRecordOfItem)[i]? =
        some ⟨it.name, it.folder.isSome, it.size.getD 0, it.id,
          it.lastModifiedDateTime, it.webUrl⟩) ∧
    (∀ it : DriveItem, (lsRecordOfItem it).is_folder = true ↔ it.folder.isSome) ∧
    (∀ it : DriveItem, it.size = none → (lsRecordOfItem it).size = 0) ∧
    (∀ it : DriveItem, it.lastModifiedDateTime = none →
      (lsRecordOfItem it).last_modified = none) ∧
    (∀ it : DriveItem, it.webUrl = none → (lsRecordOfItem it).web_url = none) := by
  refine ⟨?_, by simp, ?_, ?_, ?_, ?_, ?_⟩
  · simp [ls_handle, h200, hval]
  · intro i it hit
    rw [List.getElem?_map, hit]
    rfl
  · intro it
    simp [lsRecordOfItem]
  · intro it h
    simp [lsRecordOfItem, h]
  · intro it h
    simp [lsRecordOfItem, h]
  · intro it h
    simp [lsRecordOfItem, h]

/-- Item with the `folder` marker and no optional metadata fields. -/
def c10itemA : DriveItem := ⟨"docs", "id1", some (), none, none, none⟩

/-- Item without the `folder` marker and with all optional fields. -/
def c10itemB : DriveItem :=
  ⟨"report.csv", "id2", none, some 512, some "2026-01-02T03:04:05Z", some "u2"⟩

/-- A 200 listing response returning the two witness items. -/
def c10resp : LsResponse := ⟨200, none, some [c10itemA, c10itemB]⟩

/-- Witness for C10 on a two-item 200 response. -/
theorem C10_witness :
    ls_handle c10resp = Except.ok
      [⟨"docs", true, 0, "id1", none, none⟩,
       ⟨"report.csv", false, 512, "id2", some "2026-01-02T03:04:05Z", some "u2"⟩] ∧
    ([c10itemA, c10itemB].map lsRecordOfItem)[0]? =
      some ⟨"docs", true, 0, "id1", none, none⟩ := by
  have h := C10_ls_item_mapping c10resp [c10itemA, c10itemB] rfl rfl
  exact ⟨h.1, h.2.2.1 0 c10itemA rfl⟩

/-! ### Claims about the destinations (C6, C7)

The code decides inclusion with Python truthiness (`if self.account_key:`),
so an explicitly supplied *empty-string* credential behaves like an absent
one.  This refutes the claims' reading of "supplied" as "a value was
passed": the counterexamples below exhibit the divergence at empty-string
inputs, and the amended theorems characterise the code's actual rule
("supplied as a non-empty string"). -/

/-- C6 counterexample: with `account_key = ""` and `sas_token = "tok"` both
supplied, the options include `sas_token` and exclude `account_key`,
contradicting the claimed precedence of a supplied `account_key`. -/
theorem C6_counterexample :
    ((AzureDestination.mk "acct" (some "") (some "tok")).account_key.isSome = true ∧
      (AzureDestination.mk "acct" (some "") (some "tok")).sas_token.isSome = true) ∧
    List.lookup "account_key"
        (AzureDestination.get_storage_options
          (AzureDestination.mk "acct" (some "") (some "tok"))) = none ∧
    List.lookup "sas_token"
        (AzureDestination.get_storage_options
          (AzureDestination.mk "acct" (some "") (some "tok"))) = some "tok" := by
  decide

/-- C6 (amended): `account_name` is always present; `account_key` is
present iff it was supplied as a non-empty string, in which case it takes
precedence and `sas_token` is excluded; `sas_token` is present iff it was
supplied as a non-empty string and `account_key` was not; with neither
supplied non-empty, neither key appears. -/
theorem C6_amended_azure_options (d : AzureDestination) :
    List.lookup "account_name" d.get_storage_options = some d.account_name ∧
    List.lookup "account_key" d.get_storage_options =
      (if pyTruthy d.account_key then d.account_key else none) ∧
    List.lookup "sas_token" d.get_storage_options =
      (if pyTruthy d.account_key then none
       else if pyTruthy d.sas_token then d.sas_token else none) := by
  obtain ⟨an, ak, st⟩ := d
  cases ak with
  | none =>
    cases st with
    | none => simp [AzureDestination.get_storage_options, pyTruthy, List.lookup]
    | some s2 =>
      by_cases h2 : s2 = "" <;>
        simp [AzureDestination.get_storage_options, pyTruthy, h2, List.lookup]
  | some s1 =>
    cases st with
    | none =>
      by_cases h1 : s1 = "" <;>
        simp [AzureDestination.get_storage_options, pyTruthy, h1, List.lookup]
    | some s2 =>
      by_cases h1 : s1 = "" <;> by_cases h2 : s2 = "" <;>
        simp [AzureDestination.get_storage_options, pyTruthy, h1, h2, List.lookup]

/-- C7 counterexample: supplying the token `""` adds no `token` entry, so
"the token key is present iff a token was supplied" fails. -/
theorem C7_counterexample :
    (S3Destination.mk "k" "s" (some "")).token.isSome = true ∧
    S3Destination.get_storage_options (S3Destination.mk "k" "s" (some "")) =
      [("key", "k"), ("secret", "s")] ∧
    List.lookup "token"
      (S3Destination.get_storage_options (S3Destination.mk "k" "s" (some ""))) =
        none := by
  decide

/-- C7 (amended): `Local.get_storage_options()` is always the empty
mapping; an S3 destination without a truthy token yields exactly
`{key, secret}`; supplying a non-empty token adds exactly the one
additional `token` entry. -/
theorem C7_amended_local_s3_options :
    (∀ l : LocalDestination, l.get_storage_options = []) ∧
    (∀ d : S3Destination, pyTruthy d.token = false →
      d.get_storage_options = [("key", d.key), ("secret", d.secret)]) ∧
    (∀ (d : S3Destination) (t : String), d.token = some t → t ≠ "" →
      d.get_storage_options = [("key", d.key), ("secret", d.secret), ("token", t)]) := by
  refine ⟨fun _ => rfl, ?_, ?_⟩
  · intro d h
    simp [S3Destination.get_storage_options, h]
  · intro d t ht hne
    simp [S3Destination.get_storage_options, pyTruthy, ht, hne]

/-- Witness for the amended C7 on concrete destinations. -/
theorem C7_witness :
    LocalDestination.get_storage_options ⟨⟩ = [] ∧
    S3Destination.get_storage_options ⟨"k", "s", none⟩ =
      [("key", "k"), ("secret", "s")] ∧
    S3Destination.get_storage_options ⟨"k", "s", some "tok"⟩ =
      [("key", "k"), ("secret", "s"), ("token", "tok")] := by
  obtain ⟨h1, h2, h3⟩ := C7_amended_local_s3_options
  exact ⟨h1 ⟨⟩, h2 ⟨"k", "s", none⟩ (by decide),
    h3 ⟨"k", "s", some "tok"⟩ "tok" rfl (by decide)⟩

/-! ### Claim C8: the `read_df` dispatch is keyed on the lowered extension -/

/-- A dot inside a string forces a dot to be found after any prefix. -/
theorem extAfterDot_append_some (t u e : List Char)
    (h : extAfterDot u = some e) : extAfterDot (t ++ u) = some e := by
  induction t with
  | nil => simpa using h
  | cons c t ih => simp [extAfterDot, ih]

/-- Appending a dot-free tail shifts the extension of the prefix. -/
theorem extAfterDot_append_none (t u : List Char)
    (h : extAfterDot u = none) :
    extAfterDot (t ++ u) = (extAfterDot t).map (fun x => x ++ u) := by
  induction t with
  | nil => simp [extAfterDot, h]
  | cons c t ih =>
    cases hx : extAfterDot t with
    | some e2 =>
      have h2 : extAfterDot (t ++ u) = some (e2 ++ u) := by
        rw [ih, hx]
        rfl
      simp [extAfterDot, h2, hx]
    | none =>
      have h2 : extAfterDot (t ++ u) = none := by
        rw [ih, hx]
        rfl
      by_cases hc : c = '.'
      · simp [extAfterDot, h2, hx, hc]
      · simp [extAfterDot, h2, hx, hc]

/-- A string with an extension contains a dot. -/
theorem mem_of_extAfterDot_some :
    ∀ (t e : List Char), extAfterDot t = some e → '.' ∈ t := by
  intro t
  induction t with
  | nil =>
    intro e h
    simp [extAfterDot] at h
  | cons c t ih =>
    intro e h
    simp only [extAfterDot] at h
    cases hx : extAfterDot t with
    | some e3 => exact List.mem_cons_of_mem _ (ih e3 hx)
    | none =>
      rw [hx] at h
      by_cases hc : c = '.'
      · subst hc
        exact List.mem_cons_self _ _
      · simp [hc] at h

/-- The function `extAfterDot` finds nothing exactly on dot-free strings. -/
theorem extAfterDot_eq_none_iff (e : List Char) :
    extAfterDot e = none ↔ '.' ∉ e := by
  induction e with
  | nil => simp [extAfterDot]
  | cons c t ih =>
    cases hx : extAfterDot t with
    | some e2 =>
      have hm := mem_of_extAfterDot_some t e2 hx
      simp [extAfterDot, hx, hm]
    | none =>
      have hnm : '.' ∉ t := ih.mp hx
      by_cases hc : c = '.'
      · subst hc
        simp [extAfterDot, hx]
      · simp [extAfterDot, hx, hc, hnm, Ne.symm hc]

/-- The extension of `t ++ "." ++ x` for dot-free `x` is `x`. -/
theorem extAfterDot_append_dot (t x : List Char) (hx : '.' ∉ x) :
    extAfterDot (t ++ '.' :: x) = some x := by
  apply extAfterDot_append_some
  have h0 : extAfterDot x = none := (extAfterDot_eq_none_iff x).mpr hx
  simp [extAfterDot, h0]

/-- Any string with extension `x` splits as `t ++ "." ++ x`, `x` dot-free. -/
theorem extAfterDot_some_decomp :
    ∀ (L x : List Char), extAfterDot L = some x →
      '.' ∉ x ∧ ∃ t, L = t ++ '.' :: x := by
  intro L
  induction L with
  | nil =>
    intro x h
    simp [extAfterDot] at h
  | cons c L ih =>
    intro x h
    simp only [extAfterDot] at h
    cases hx : extAfterDot L with
    | some e =>
      rw [hx] at h
      obtain rfl : e = x := by simpa using h
      obtain ⟨hd, t, rfl⟩ := ih e hx
      exact ⟨hd, c :: t, rfl⟩
    | none =>
      rw [hx] at h
      by_cases hc : c = '.'
      · subst hc
        simp only [if_pos rfl] at h
        obtain rfl : L = x := by simpa using h
        exact ⟨(extAfterDot_eq_none_iff L).mp hx, [], rfl⟩
      · simp [hc] at h

/-- For a dot-free extension `x`, ending in `"." ++ x` is the same as
having extension exactly `x`. -/
theorem suffix_dot_iff (L x : List Char) (hx : '.' ∉ x) :
    ('.' :: x) <:+ L ↔ extAfterDot L = some x := by
  constructor
  · rintro ⟨t, rfl⟩
    exact extAfterDot_append_dot t x hx
  · intro h
    obtain ⟨_, t, rfl⟩ := extAfterDot_some_decomp L x h
    exact ⟨t, rfl⟩

/-- The chain of `endswith` tests run by `read_df` computes exactly the
extension-keyed dispatch. -/
theorem suffixDispatch_eq_extDispatch (L : List Char) :
    suffixDispatch L = extDispatch (extAfterDot L) := by
  cases h : extAfterDot L with
  | none =>
    have h1 : ¬(('.' :: ['c', 's', 'v']) <:+ L) := by
      intro hs
      have h' := (suffix_dot_iff L ['c', 's', 'v'] (by decide)).mp hs
      rw [h] at h'
      exact Option.noConfusion h'
    have h2 : ¬(('.' :: ['x', 'l', 's', 'x']) <:+ L) := by
      intro hs
      have h' := (suffix_dot_iff L ['x', 'l', 's', 'x'] (by decide)).mp hs
      rw [h] at h'
      exact Option.noConfusion h'
    have h3 : ¬(('.' :: ['x', 'l', 's']) <:+ L) := by
      intro hs
      have h' := (suffix_dot_iff L ['x', 'l', 's'] (by decide)).mp hs
      rw [h] at h'
      exact Option.noConfusion h'
    simp [suffixDispatch, extDispatch, List.isSuffixOf_iff_suffix, h1, h2, h3]
  | some e =>
    have c1 : (('.' :: ['c', 's', 'v']) <:+ L) ↔ e = ['c', 's', 'v'] := by
      rw [suffix_dot_iff L ['c', 's', 'v'] (by decide), h]
      simp
    have c2 : (('.' :: ['x', 'l', 's', 'x']) <:+ L) ↔ e = ['x', 'l', 's', 'x'] := by
      rw [suffix_dot_iff L ['x', 'l', 's', 'x'] (by decide), h]
      simp
    have c3 : (('.' :: ['x', 'l', 's']) <:+ L) ↔ e = ['x', 'l', 's'] := by
      rw [suffix_dot_iff L ['x', 'l', 's'] (by decide), h]
      simp
    simp [suffixDispatch, extDispatch, List.isSuffixOf_iff_suffix, c1, c2, c3]

/-- C8: the dispatch decision of `read_df` on a file path is exactly the
case-insensitive extension-keyed dispatch: the path is lowercased, the text
after its last dot selects the delimited-text parser for `csv`, the
spreadsheet parser for `xlsx`/`xls`, and the unsupported-format `ValueError`
for anything else (including extensionless paths) — so the decision depends
only on the path's case-folded extension and never reaches a parser
otherwise. -/
theorem C8_dispatch_by_extension (p : List Char) :
    read_df_dispatch p = extDispatch (extAfterDot (pyLower p)) :=
  suffixDispatch_eq_extDispatch (pyLower p)

end Spfetch
